import Mathlib

/-!
HomepageFeatures: the features grid of the documentation homepage.

A shallow embedding of `docusaurus/src/components/HomepageFeatures/index.js`.
The JSX the component returns is a tree of `Node`s; the two function components
`Feature` and `HomepageFeatures` are functions into that tree.  The imported
collaborators (`useBaseUrl`, the scoped style module `styles`) are parameters.
-/

namespace Docusaurus

/-! ## The rendered tree -/

/-- A node of the tree a component returns.  `ι` is the type of icon components, which the
file imports and never inspects. -/
inductive Node (ι : Type) where
  /-- JSX text, or a string in braces such as `{title}`. -/
  | text (s : String)
  /-- A host element `<tag className=...>children</tag>`; `none` is an absent or `undefined`
  class attribute. -/
  | element (tag : String) (className : Option String) (children : List (Node ι))
  /-- A fragment `<>children</>`. -/
  | fragment (children : List (Node ι))
  /-- The framework's `<Link to=... className=...>children</Link>`. -/
  | link (to_ : String) (className : Option String) (children : List (Node ι))
  /-- An icon component used as `<Icon className=... />`. -/
  | icon (component : ι) (className : Option String)
  /-- A `<Feature key=... />` element of a list, together with what `Feature` returns for it. -/
  | keyed (key : Nat) (child : Node ι)

/-- The scoped style module: a lookup from a logical class name to the generated one
(`undefined` when the stylesheet has no such class). -/
abbrev Styles := String → Option String

/-- The `clsx` utility on string or `undefined` arguments: the truthy ones joined by one blank. -/
def clsx (args : List (Option String)) : String :=
  " ".intercalate (args.filterMap fun a =>
    match a with
    | some s => if s = "" then none else some s
    | none => none)

/-- One entry of the catalog: `{title, icon, link, description}`. -/
structure FeatureDescriptor (ι : Type) where
  title : String
  icon : ι
  link : String
  description : Node ι

/-- The eight icon components the file imports from `./icons/`. -/
inductive IconImport where
  | MultipleLLMIcon
  | MCPSupportIcon
  | ChatMemoryIcon
  | ProjectScannerIcon
  | TokenCostIcon
  | WebSearchIcon
  | DragDropIcon
  | NaiveRAGIcon
  deriving DecidableEq, Repr

/-! ## The catalog -/

/-- The constant `FeatureList`. -/
def FeatureList : List (FeatureDescriptor IconImport) :=
  [ { title := "Multiple LLM Providers"
      icon := .MultipleLLMIcon
      link := "/docs/llm-providers/overview"
      description := .fragment [.text "Connect to local LLMs like Ollama, LMStudio, and GPT4All, as well as cloud-based providers like OpenAI, Anthropic, Mistral, Groq, and more."] },
    { title := "MCP Support"
      icon := .MCPSupportIcon
      link := "/docs/features/mcp"
      description := .fragment [.text "Model Context Protocol (MCP) support for advanced agent-like capabilities, allowing the LLM to access external tools and services for more comprehensive responses."] },
    { title := "Chat Memory"
      icon := .ChatMemoryIcon
      link := "/docs/features/chat-memory"
      description := .fragment [.text "Your chats are stored locally, allowing you to easily restore them in the future. Set your preferred chat memory size for efficient context management."] },
    { title := "Project Scanner"
      icon := .ProjectScannerIcon
      link := "/docs/features/project-scanner"
      description := .fragment [.text "Add source code (full project or by package) to prompt context when using compatible LLM providers for better code-aware responses."] },
    { title := "Token Cost Calculator"
      icon := .TokenCostIcon
      link := "/docs/features/overview"
      description := .fragment [.text "Calculate the token usage and cost when using Cloud LLM providers to help manage your API usage efficiently."] },
    { title := "Web Search"
      icon := .WebSearchIcon
      link := "/docs/features/web-search"
      description := .fragment [.text "Integrate web search functionality using Google or Tavily to find relevant information for your programming questions."] },
    { title := "Drag & Drop Images"
      icon := .DragDropIcon
      link := "/docs/features/dnd-images"
      description := .fragment [.text "Drag and drop images directly into the chat when working with multimodal LLMs for visual context in your conversations."] },
    { title := "Naive RAG"
      icon := .NaiveRAGIcon
      link := "/docs/features/rag"
      description := .fragment [.text "Retrieval-Augmented Generation that automatically finds and incorporates relevant code from your project to enhance the LLM\x27s understanding of your codebase."] } ]

/-! ## The components -/

/-- The component `Feature({icon: Icon, title, description, link})`. -/
def Feature {ι : Type} (useBaseUrl : String → String) (styles : Styles)
    (props : FeatureDescriptor ι) : Node ι :=
  .element "div" (some (clsx [some "col col--4", styles "feature"]))
    [ .link (useBaseUrl props.link) (styles "featureLink")
        [ .element "div" (some (clsx [some "text--center feature-card", styles "featureCard"]))
            [ .element "div" (styles "iconContainer")
                [ .icon props.icon (styles "featureIcon") ],
              .element "h3" (styles "featureTitle") [ .text props.title ],
              .element "p" none [ props.description ],
              .element "div" (styles "learnMore")
                [ .text "Learn more ",
                  .element "span" (styles "arrow") [ .text "→" ] ] ] ] ]

/-- The body of `HomepageFeatures` with the catalog it maps over as an argument. -/
def HomepageFeaturesOf {ι : Type} (useBaseUrl : String → String) (styles : Styles)
    (catalog : List (FeatureDescriptor ι)) : Node ι :=
  .element "section" (styles "features")
    [ .element "div" (some "container")
        [ .element "div" (some "row")
            (catalog.mapIdx fun idx props => .keyed idx (Feature useBaseUrl styles props)) ] ]

/-- The default export `HomepageFeatures()`: no props, the catalog is `FeatureList`. -/
def HomepageFeatures (useBaseUrl : String → String) (styles : Styles) : Node IconImport :=
  HomepageFeaturesOf useBaseUrl styles FeatureList

/-! ## Reading a rendered tree -/

mutual
/-- Every node of a tree in document order (a node before its children, children left to
right). -/
def Node.subnodes {ι : Type} : Node ι → List (Node ι)
  | .text s => [.text s]
  | .element tag cls children => .element tag cls children :: Node.subnodesList children
  | .fragment children => .fragment children :: Node.subnodesList children
  | .link to_ cls children => .link to_ cls children :: Node.subnodesList children
  | .icon c cls => [.icon c cls]
  | .keyed k child => .keyed k child :: child.subnodes
/-- The nodes of a list of trees in document order. -/
def Node.subnodesList {ι : Type} : List (Node ι) → List (Node ι)
  | [] => []
  | n :: ns => n.subnodes ++ Node.subnodesList ns
end

mutual
/-- The text of a tree, concatenated in document order. -/
def Node.textContent {ι : Type} : Node ι → String
  | .text s => s
  | .element _ _ children => Node.textContentList children
  | .fragment children => Node.textContentList children
  | .link _ _ children => Node.textContentList children
  | .icon _ _ => ""
  | .keyed _ child => child.textContent
/-- The text of a list of trees. -/
def Node.textContentList {ι : Type} : List (Node ι) → String
  | [] => ""
  | n :: ns => n.textContent ++ Node.textContentList ns
end

/-- The direct children of a node. -/
def Node.children {ι : Type} : Node ι → List (Node ι)
  | .text _ => []
  | .element _ _ children => children
  | .fragment children => children
  | .link _ _ children => children
  | .icon _ _ => []
  | .keyed _ child => [child]

/-- The node reached by following child positions from the root. -/
def Node.getAt {ι : Type} : List Nat → Node ι → Option (Node ι)
  | [], n => some n
  | i :: path, n => n.children[i]? >>= Node.getAt path

/-- The tree with the node at a path of child positions replaced; a path that leaves the
tree changes nothing. -/
def Node.setAt {ι : Type} (n : Node ι) (path : List Nat) (new : Node ι) : Node ι :=
  match path, n with
  | [], _ => new
  | i :: path, .element tag cls children =>
      .element tag cls (children.modify (fun c => c.setAt path new) i)
  | i :: path, .fragment children => .fragment (children.modify (fun c => c.setAt path new) i)
  | i :: path, .link to_ cls children =>
      .link to_ cls (children.modify (fun c => c.setAt path new) i)
  | 0 :: path, .keyed k child => .keyed k (child.setAt path new)
  | _ :: _, n => n

/-- The `key` of a list element. -/
def Node.key? {ι : Type} : Node ι → Option Nat
  | .keyed k _ => some k
  | _ => none

/-- The class attribute of a node. -/
def Node.className? {ι : Type} : Node ι → Option String
  | .element _ cls _ => cls
  | .link _ cls _ => cls
  | .icon _ cls => cls
  | _ => none

/-- The class attributes of a tree, in document order (one entry per node). -/
def Node.classNames {ι : Type} (n : Node ι) : List (Option String) :=
  n.subnodes.map Node.className?

/-- A title heading: an `<h3>`. -/
def Node.isHeading {ι : Type} : Node ι → Bool
  | .element tag _ _ => tag == "h3"
  | _ => false

/-- A description paragraph: a `<p>`. -/
def Node.isParagraph {ι : Type} : Node ι → Bool
  | .element tag _ _ => tag == "p"
  | _ => false

/-- An icon component element. -/
def Node.isIcon {ι : Type} : Node ι → Bool
  | .icon _ _ => true
  | _ => false

/-- A navigation element: a `<Link>`. -/
def Node.isLink {ι : Type} : Node ι → Bool
  | .link _ _ _ => true
  | _ => false

/-- The "Learn more" region: an element whose first child is the text `Learn more `. -/
def Node.isLearnMore {ι : Type} : Node ι → Bool
  | .element _ _ (.text t :: _) => t == "Learn more "
  | _ => false

/-- The `to` of a `<Link>`. -/
def Node.to? {ι : Type} : Node ι → Option String
  | .link to_ _ _ => some to_
  | _ => none

/-- The icon component of an icon element. -/
def Node.icon? {ι : Type} : Node ι → Option ι
  | .icon c _ => some c
  | _ => none

/-- The navigation targets of a tree: the `to` of every `<Link>`, in document order. -/
def Node.linkTargets {ι : Type} (n : Node ι) : List String :=
  n.subnodes.filterMap Node.to?

/-- The icon components a tree renders, in document order. -/
def Node.icons {ι : Type} (n : Node ι) : List ι :=
  n.subnodes.filterMap Node.icon?

/-- The heading texts of a tree, in document order. -/
def Node.headings {ι : Type} (n : Node ι) : List String :=
  (n.subnodes.filter Node.isHeading).map Node.textContent

/-- The paragraphs of a tree, in document order. -/
def Node.paragraphs {ι : Type} (n : Node ι) : List (Node ι) :=
  n.subnodes.filter Node.isParagraph

/-- The position in document order of the first node that satisfies `p`
(the number of nodes when there is none). -/
def Node.position {ι : Type} (p : Node ι → Bool) (n : Node ι) : Nat :=
  n.subnodes.findIdx p

/-- The number of nodes of a tree that satisfy `p`. -/
def Node.count {ι : Type} (p : Node ι → Bool) (n : Node ι) : Nat :=
  n.subnodes.countP p

/-- The cards of a rendered section: the children of the row, which is the first child of
the container, which is the first child of the section. -/
def sectionCards {ι : Type} (n : Node ι) : List (Node ι) :=
  match n.getAt [0, 0] with
  | some row => row.children
  | none => []

/-- The child positions that lead from the node `Feature` returns to the text of its
heading: the link, the card, the `<h3>` (second child of the card), its text. -/
def headingTextPath : List Nat := [0, 0, 1, 0]

/-- The child positions that lead from the section to card `i`. -/
def cardPath (i : Nat) : List Nat := [0, 0, i, 0]

/-- A catalog with the title of entry `i` replaced by `t` and nothing else changed. -/
def retitle {ι : Type} (catalog : List (FeatureDescriptor ι)) (i : Nat) (t : String) :
    List (FeatureDescriptor ι) :=
  catalog.modify (fun d => { d with title := t }) i

/-! ## The collaborators -/

/-- Modelled from the spec: the base-URL resolver `useBaseUrl` of the site framework, which
the file imports and does not define, for a site whose base URL is `baseUrl`.  The base URL is
a site-root-relative prefix prepended to internal links, and for base URL `/` the link
`/docs/features/rag` resolves to itself: a link that already starts with the base URL is kept,
any other gets the base URL in front of it, without doubling the slash. -/
def joinBaseUrl (baseUrl link : String) : String :=
  if baseUrl.toList.isPrefixOf link.toList then link
  else baseUrl ++ String.mk (if link.toList.head? = some '/' then link.toList.tail else link.toList)

/-- The class names the interface description lists for the scoped style module. -/
def listedStyleNames : List String :=
  ["feature", "featureCard", "iconContainer", "featureTitle", "learnMore", "arrow",
   "featureLink", "featureIcon"]

/-- The class names `Feature` and `HomepageFeatures` look up in `styles`, in source order. -/
def styleNamesRead : List String :=
  ["feature", "featureLink", "featureCard", "iconContainer", "featureIcon", "featureTitle",
   "learnMore", "arrow", "features"]

/-- A component reads the class `name` of the style module when its output can change with
the value the module gives that name, all other names being kept. -/
def readsStyle {ι : Type} (render : Styles → Node ι) (name : String) : Prop :=
  ∃ (styles : Styles) (v : Option String), render (Function.update styles name v) ≠ render styles

/-- The keys of the cards of a rendered section, in document order. -/
def cardKeys {ι : Type} (n : Node ι) : List (Option Nat) :=
  (sectionCards n).map Node.key?

/-- The last entry of `FeatureList`, which is also the one-entry catalog of the end-to-end
scenario. -/
def naiveRAG : FeatureDescriptor IconImport :=
  { title := "Naive RAG"
    icon := .NaiveRAGIcon
    link := "/docs/features/rag"
    description := .fragment [.text "Retrieval-Augmented Generation that automatically finds and incorporates relevant code from your project to enhance the LLM\x27s understanding of your codebase."] }

/-- A catalog entry as the object the `map` callback receives and spreads: the four fields
`Feature` destructures and, when the object has one, an own `key` property (here a number).
No entry of `FeatureList` has one. -/
structure CatalogEntry (ι : Type) where
  props : FeatureDescriptor ι
  ownKey : Option Nat

/-- The entry that is a descriptor and nothing more. -/
def CatalogEntry.plain {ι : Type} (d : FeatureDescriptor ι) : CatalogEntry ι :=
  { props := d, ownKey := none }

/-- The body of `HomepageFeatures` on a catalog of such objects.  In
`<Feature key={idx} {...props} />` the spread is written after `key`, so an own `key` of the
spread object takes the place of `idx`. -/
def HomepageFeaturesOfEntries {ι : Type} (useBaseUrl : String → String) (styles : Styles)
    (catalog : List (CatalogEntry ι)) : Node ι :=
  .element "section" (styles "features")
    [ .element "div" (some "container")
        [ .element "div" (some "row")
            (catalog.mapIdx fun idx entry =>
              .keyed (entry.ownKey.getD idx) (Feature useBaseUrl styles entry.props)) ] ]

/-- A catalog of three entries whose second entry has the own `key` 0. -/
def ownKeyCatalog : List (CatalogEntry IconImport) :=
  [ { props := naiveRAG, ownKey := none },
    { props := naiveRAG, ownKey := some 0 },
    { props := naiveRAG, ownKey := none } ]

/-- A style module without any class. -/
def noStyles : Styles := fun _ => none

/-- A style module that gives every name a generated class. -/
def moduleStyles : Styles := fun name => some (name ++ "_src-components-HomepageFeatures")

/-! ## Shared lemmas -/

/-- The cards of a rendered section are the catalog mapped, with its positions, through
`Feature`. -/
theorem sectionCards_eq {ι : Type} (r : String → String) (s : Styles)
    (catalog : List (FeatureDescriptor ι)) :
    sectionCards (HomepageFeaturesOf r s catalog)
      = catalog.mapIdx fun idx props => .keyed idx (Feature r s props) := rfl

/-- The cards of a section rendered from catalog objects: each carries its own `key` when it
has one and its position otherwise. -/
theorem sectionCards_entries {ι : Type} (r : String → String) (s : Styles)
    (catalog : List (CatalogEntry ι)) :
    sectionCards (HomepageFeaturesOfEntries r s catalog)
      = catalog.mapIdx fun idx entry => .keyed (entry.ownKey.getD idx) (Feature r s entry.props) :=
  rfl

/-- On descriptors without an own `key` the rendering of catalog objects is the rendering of
the descriptors. -/
theorem entries_plain {ι : Type} (r : String → String) (s : Styles)
    (catalog : List (FeatureDescriptor ι)) :
    HomepageFeaturesOfEntries r s (catalog.map CatalogEntry.plain)
      = HomepageFeaturesOf r s catalog := by
  have h : ((catalog.map CatalogEntry.plain).mapIdx fun idx entry =>
        Node.keyed (entry.ownKey.getD idx) (Feature r s entry.props))
      = catalog.mapIdx fun idx props => Node.keyed idx (Feature r s props) := by
    apply List.ext_getElem?
    intro i
    simp only [List.getElem?_mapIdx, List.getElem?_map, Option.map_map]
    cases catalog[i]? <;> simp [CatalogEntry.plain]
  simp only [HomepageFeaturesOfEntries, HomepageFeaturesOf, h]

/-- Changing one entry of a list before a positional map is changing one entry after it. -/
theorem mapIdx_modify {α β : Type} (g : α → α) (h : β → β) :
    ∀ (l : List α) (f : Nat → α → β) (i : Nat), (∀ a, f i (g a) = h (f i a)) →
      (l.modify g i).mapIdx f = (l.mapIdx f).modify h i
  | [], _, _, _ => by simp
  | a :: l, f, 0, hf => by simp [List.mapIdx_cons, hf]
  | a :: l, f, i + 1, hf => by
      simp only [List.modify_succ_cons, List.mapIdx_cons]
      rw [mapIdx_modify g h l (fun j => f (j + 1)) i hf]

/-- The card of a descriptor is fixed by the resolved link and the eight classes `Feature`
looks up. -/
theorem feature_congr {ι : Type} (r₁ r₂ : String → String) (s₁ s₂ : Styles)
    (d : FeatureDescriptor ι) (hr : r₁ d.link = r₂ d.link)
    (hs : ∀ name ∈ styleNamesRead, s₁ name = s₂ name) :
    Feature r₁ s₁ d = Feature r₂ s₂ d := by
  simp only [styleNamesRead, List.mem_cons, List.mem_singleton, forall_eq_or_imp, forall_eq,
    List.not_mem_nil, false_implies, implies_true, and_true] at hs
  obtain ⟨h1, h2, h3, h4, h5, h6, h7, h8, _⟩ := hs
  simp only [Feature, hr, h1, h2, h3, h4, h5, h6, h7, h8]

/-- The rendered section is fixed by the catalog, the resolved links of its entries and the
nine classes the two components look up. -/
theorem render_congr {ι : Type} (r₁ r₂ : String → String) (s₁ s₂ : Styles)
    (catalog : List (FeatureDescriptor ι))
    (hr : ∀ d ∈ catalog, r₁ d.link = r₂ d.link)
    (hs : ∀ name ∈ styleNamesRead, s₁ name = s₂ name) :
    HomepageFeaturesOf r₁ s₁ catalog = HomepageFeaturesOf r₂ s₂ catalog := by
  have hl : (catalog.mapIdx fun idx props => Node.keyed idx (Feature r₁ s₁ props))
      = catalog.mapIdx fun idx props => Node.keyed idx (Feature r₂ s₂ props) := by
    apply List.ext_getElem?
    intro i
    simp only [List.getElem?_mapIdx]
    cases hi : catalog[i]? with
    | none => rfl
    | some d => simp [feature_congr r₁ r₂ s₁ s₂ d (hr d (List.getElem?_mem hi)) hs]
  simp only [HomepageFeaturesOf, hl, hs "features" (by simp [styleNamesRead])]

/-- The class attributes of the rendered section do not involve the resolver. -/
theorem classNames_resolver (r : String → String) (s : Styles) :
    (HomepageFeatures r s).classNames = (HomepageFeatures id s).classNames := rfl

/-- A class whose value shows in the class attributes of the section is read. -/
theorem reads_of_classNames (r : String → String) (name : String)
    (h : (HomepageFeatures id (Function.update noStyles name (some "x"))).classNames
          ≠ (HomepageFeatures id noStyles).classNames) :
    readsStyle (HomepageFeatures r) name := by
  refine ⟨noStyles, some "x", fun e => h ?_⟩
  rw [← classNames_resolver r, ← classNames_resolver r, e]

/-- For base URL `/` the resolver keeps every link of the shipped catalog. -/
theorem joinBaseUrl_root_featureList :
    ∀ d ∈ FeatureList, joinBaseUrl "/" d.link = id d.link := by
  intro d hd
  have h : ∀ l ∈ FeatureList.map (·.link), joinBaseUrl "/" l = l := by decide
  exact h _ (List.mem_map_of_mem _ hd)

/-! ## The section container -/

/-- C1: for every catalog the rendered section has as many cards in its row as the catalog has
entries; the empty catalog gives a row without children; the shipped catalog gives eight
cards and a one-entry catalog gives one. -/
theorem card_count {ι : Type} (r : String → String) (s : Styles) :
    (∀ catalog : List (FeatureDescriptor ι),
        (sectionCards (HomepageFeaturesOf r s catalog)).length = catalog.length)
    ∧ (HomepageFeaturesOf r s ([] : List (FeatureDescriptor ι))).getAt [0, 0]
        = some (.element "div" (some "row") [])
    ∧ (sectionCards (HomepageFeatures r s)).length = 8
    ∧ (∀ d : FeatureDescriptor ι, (sectionCards (HomepageFeaturesOf r s [d])).length = 1) := by
  refine ⟨fun catalog => ?_, rfl, rfl, fun d => rfl⟩
  rw [sectionCards_eq, List.length_mapIdx]

/-- C2: the card at position `i` of the rendered section is the `Feature` rendering of entry
`i` of the catalog (and there is no card at a position the catalog does not have); the
headings of the shipped section read, in order, as the titles of `FeatureList`. -/
theorem card_order {ι : Type} (r : String → String) (s : Styles) :
    (∀ (catalog : List (FeatureDescriptor ι)) (i : Nat),
        (sectionCards (HomepageFeaturesOf r s catalog))[i]?
          = catalog[i]?.map fun d => Node.keyed i (Feature r s d))
    ∧ (HomepageFeatures r s).headings
        = ["Multiple LLM Providers", "MCP Support", "Chat Memory", "Project Scanner",
           "Token Cost Calculator", "Web Search", "Drag & Drop Images", "Naive RAG"] := by
  refine ⟨fun catalog i => ?_, rfl⟩
  rw [sectionCards_eq, List.getElem?_mapIdx]

/-- C9, as the claim has it for every catalog: in the catalog of three entries whose second
entry has the own `key` 0 the cards carry the keys 0, 0, 2, so the second card does not carry
its position, the keys are not `0, 1, 2`, they are not pairwise distinct, and they differ from
the keys of the same descriptors without the own `key`. -/
theorem own_key_overrides_position :
    cardKeys (HomepageFeaturesOfEntries (joinBaseUrl "/") moduleStyles ownKeyCatalog)
      = [some 0, some 0, some 2]
    ∧ ((sectionCards (HomepageFeaturesOfEntries (joinBaseUrl "/") moduleStyles
          ownKeyCatalog))[1]?).bind Node.key? ≠ some 1
    ∧ cardKeys (HomepageFeaturesOfEntries (joinBaseUrl "/") moduleStyles ownKeyCatalog)
        ≠ (List.range ownKeyCatalog.length).map some
    ∧ ¬ (cardKeys (HomepageFeaturesOfEntries (joinBaseUrl "/") moduleStyles
          ownKeyCatalog)).Nodup
    ∧ cardKeys (HomepageFeaturesOfEntries (joinBaseUrl "/") moduleStyles
          (ownKeyCatalog.map fun entry => CatalogEntry.plain entry.props))
        = [some 0, some 1, some 2] := by
  refine ⟨by decide, by decide, by decide, by decide, by decide⟩

/-- C9, amended: when no entry of the catalog has an own `key`, the card at position `i` is the
rendering of entry `i` and carries the key `i`; so the keys of a catalog of length `N` are
`0, ..., N-1` in order and pairwise distinct, and they stay the same when the four fields of
the entries are changed in any way. -/
theorem card_keys_by_position {ι : Type} (r : String → String) (s : Styles)
    (catalog : List (CatalogEntry ι)) (hkey : ∀ entry ∈ catalog, entry.ownKey = none) :
    (∀ i : Nat,
        (sectionCards (HomepageFeaturesOfEntries r s catalog))[i]?
          = catalog[i]?.map fun entry => Node.keyed i (Feature r s entry.props))
    ∧ cardKeys (HomepageFeaturesOfEntries r s catalog) = (List.range catalog.length).map some
    ∧ (cardKeys (HomepageFeaturesOfEntries r s catalog)).Nodup
    ∧ (∀ f : FeatureDescriptor ι → FeatureDescriptor ι,
        cardKeys (HomepageFeaturesOfEntries r s
            (catalog.map fun entry => { entry with props := f entry.props }))
          = cardKeys (HomepageFeaturesOfEntries r s catalog)) := by
  have card : ∀ (cat : List (CatalogEntry ι)), (∀ entry ∈ cat, entry.ownKey = none) →
      ∀ i : Nat, (sectionCards (HomepageFeaturesOfEntries r s cat))[i]?
        = cat[i]?.map fun entry => Node.keyed i (Feature r s entry.props) := by
    intro cat hcat i
    rw [sectionCards_entries, List.getElem?_mapIdx]
    cases hi : cat[i]? with
    | none => rfl
    | some entry => simp [hcat entry (List.getElem?_mem hi)]
  have key : ∀ (cat : List (CatalogEntry ι)), (∀ entry ∈ cat, entry.ownKey = none) →
      cardKeys (HomepageFeaturesOfEntries r s cat) = (List.range cat.length).map some := by
    intro cat hcat
    apply List.ext_getElem?
    intro i
    rw [cardKeys, List.getElem?_map, card cat hcat i]
    by_cases h : i < cat.length
    · simp [h, List.getElem?_range, Node.key?]
    · have h1 : (List.range cat.length)[i]? = none :=
        List.getElem?_eq_none (by simpa using h)
      have h2 : cat[i]? = none := List.getElem?_eq_none (Nat.le_of_not_lt h)
      simp [h1, h2]
  refine ⟨card catalog hkey, key catalog hkey, ?_, fun f => ?_⟩
  · rw [key catalog hkey]
    exact (List.nodup_range _).map (fun _ _ h => Option.some.inj h)
  · rw [key catalog hkey, key, List.length_map]
    intro entry hentry
    obtain ⟨e, he, rfl⟩ := List.mem_map.1 hentry
    exact hkey e he

/-- The amended C9 at the shipped catalog, whose entries have no own `key`: the cards of
`HomepageFeatures` carry the keys 0 to 7. -/
theorem card_keys_by_position_witness :
    (∀ entry ∈ FeatureList.map CatalogEntry.plain, entry.ownKey = none)
    ∧ HomepageFeaturesOfEntries (joinBaseUrl "/") moduleStyles
          (FeatureList.map CatalogEntry.plain)
        = HomepageFeatures (joinBaseUrl "/") moduleStyles
    ∧ cardKeys (HomepageFeaturesOfEntries (joinBaseUrl "/") moduleStyles
          (FeatureList.map CatalogEntry.plain))
        = (List.range (FeatureList.map CatalogEntry.plain).length).map some :=
  have hkey : ∀ entry ∈ FeatureList.map CatalogEntry.plain, entry.ownKey = none := by
    intro entry hentry
    obtain ⟨d, _, rfl⟩ := List.mem_map.1 hentry
    rfl
  ⟨hkey, entries_plain _ _ FeatureList,
    (card_keys_by_position (joinBaseUrl "/") moduleStyles _ hkey).2.1⟩

/-! ## The feature renderer -/

/-- C3: the card of a descriptor `d` has the `to` of its `Link` equal to the resolver applied
to `d.link` (any further link comes from the description), whatever the title, icon and
description are; with base URL `/` the link `/docs/features/rag` resolves to itself. -/
theorem link_target {ι : Type} (r : String → String) (s : Styles) :
    (∀ d : FeatureDescriptor ι,
        ((Feature r s d).getAt [0]).bind Node.to? = some (r d.link)
        ∧ (Feature r s d).linkTargets = r d.link :: d.description.linkTargets)
    ∧ (∀ (link t t₂ : String) (ic ic₂ : ι) (desc desc₂ : Node ι),
        ((Feature r s ⟨t, ic, link, desc⟩).getAt [0]).bind Node.to?
          = ((Feature r s ⟨t₂, ic₂, link, desc₂⟩).getAt [0]).bind Node.to?)
    ∧ joinBaseUrl "/" "/docs/features/rag" = "/docs/features/rag"
    ∧ (Feature (joinBaseUrl "/") s naiveRAG).linkTargets = ["/docs/features/rag"] := by
  refine ⟨fun d => ⟨rfl, ?_⟩, fun _ _ _ _ _ _ _ => rfl, by decide, ?_⟩
  · simp [Feature, Node.linkTargets, Node.subnodes, Node.subnodesList, Node.to?]
  · have h : joinBaseUrl "/" "/docs/features/rag" = "/docs/features/rag" := by decide
    simp [Feature, naiveRAG, Node.linkTargets, Node.subnodes, Node.subnodesList, Node.to?, h]

/-- C4: the node `Feature` returns has a `Link` to the resolved link as its only child, and
inside that link, in document order: the icon region (the icon with the `featureIcon` class
inside the `iconContainer`), the heading with the title, the paragraph with the description
and the "Learn more" region; these four are exactly the children of the card. -/
theorem feature_regions {ι : Type} (r : String → String) (s : Styles)
    (d : FeatureDescriptor ι) :
    ∃ linkNode : Node ι,
      (Feature r s d).children = [linkNode]
      ∧ linkNode.to? = some (r d.link)
      ∧ (linkNode.getAt [0]).map Node.children
          = some [ .element "div" (s "iconContainer") [.icon d.icon (s "featureIcon")],
                   .element "h3" (s "featureTitle") [.text d.title],
                   .element "p" none [d.description],
                   .element "div" (s "learnMore")
                     [.text "Learn more ", .element "span" (s "arrow") [.text "→"]] ]
      ∧ List.Sublist
          [ .element "div" (s "iconContainer") [.icon d.icon (s "featureIcon")],
            .element "h3" (s "featureTitle") [.text d.title],
            .element "p" none [d.description],
            .element "div" (s "learnMore")
              [.text "Learn more ", .element "span" (s "arrow") [.text "→"]] ]
          linkNode.subnodes := by
  refine ⟨_, rfl, rfl, rfl, ?_⟩
  simp only [Node.subnodes, Node.subnodesList, List.cons_append, List.nil_append,
    List.append_nil]
  refine .cons _ (.cons _ (.cons₂ _ (.cons _ (.cons₂ _ (.cons _ (.cons₂ _ ?_))))))
  exact List.Sublist.trans (List.Sublist.cons₂ _ (List.nil_sublist _))
    (List.sublist_append_right _ _)

/-- C5, as the claim orders the card: in no card of the shipped catalog does the icon come
after the description.  In every one of them the link is node 1 in document order, the icon
node 4, the heading node 5, the paragraph node 7 and the "Learn more" region node 10, so the
order title, description, icon, navigation fails, whether the navigation affordance is taken
to be the `Link` or the "Learn more" region. -/
theorem card_order_title_first_fails :
    (FeatureList.map fun d =>
        ((Feature (joinBaseUrl "/") moduleStyles d).position Node.isHeading,
         (Feature (joinBaseUrl "/") moduleStyles d).position Node.isParagraph,
         (Feature (joinBaseUrl "/") moduleStyles d).position Node.isIcon,
         (Feature (joinBaseUrl "/") moduleStyles d).position Node.isLink,
         (Feature (joinBaseUrl "/") moduleStyles d).position Node.isLearnMore))
      = List.replicate 8 (5, 7, 4, 1, 10)
    ∧ ¬ (∀ d ∈ FeatureList,
          (Feature (joinBaseUrl "/") moduleStyles d).position Node.isHeading
            < (Feature (joinBaseUrl "/") moduleStyles d).position Node.isParagraph
          ∧ (Feature (joinBaseUrl "/") moduleStyles d).position Node.isParagraph
            < (Feature (joinBaseUrl "/") moduleStyles d).position Node.isIcon
          ∧ (Feature (joinBaseUrl "/") moduleStyles d).position Node.isIcon
            < (Feature (joinBaseUrl "/") moduleStyles d).position Node.isLink)
    ∧ ¬ (∀ d ∈ FeatureList,
          (Feature (joinBaseUrl "/") moduleStyles d).position Node.isHeading
            < (Feature (joinBaseUrl "/") moduleStyles d).position Node.isParagraph
          ∧ (Feature (joinBaseUrl "/") moduleStyles d).position Node.isParagraph
            < (Feature (joinBaseUrl "/") moduleStyles d).position Node.isIcon
          ∧ (Feature (joinBaseUrl "/") moduleStyles d).position Node.isIcon
            < (Feature (joinBaseUrl "/") moduleStyles d).position Node.isLearnMore) := by
  refine ⟨by decide, ?_, ?_⟩
  · intro h
    have h0 := (h _ (List.mem_cons_self _ _)).2.1
    revert h0
    decide
  · intro h
    have h0 := (h _ (List.mem_cons_self _ _)).2.1
    revert h0
    decide

/-- C5, amended: the card of every entry of the shipped catalog has exactly one heading, one
paragraph, one icon, one `Link` and one "Learn more" region; the `Link` is the only child of
the node `Feature` returns and holds the icon, the heading, the paragraph and the "Learn more"
region inside it; in document order the `Link` comes first, then the icon, then the heading,
then the paragraph, then the "Learn more" region. -/
theorem card_parts_once_in_order (r : String → String) (s : Styles)
    (d : FeatureDescriptor IconImport) (hd : d ∈ FeatureList) :
    (Feature r s d).count Node.isHeading = 1
    ∧ (Feature r s d).count Node.isParagraph = 1
    ∧ (Feature r s d).count Node.isIcon = 1
    ∧ (Feature r s d).count Node.isLink = 1
    ∧ (Feature r s d).count Node.isLearnMore = 1
    ∧ (Feature r s d).children.map Node.isLink = [true]
    ∧ (Feature r s d).children.map
          (fun l => (l.count Node.isIcon, l.count Node.isHeading, l.count Node.isParagraph,
            l.count Node.isLearnMore))
        = [(1, 1, 1, 1)]
    ∧ ((Feature r s d).subnodes.find? Node.isLink).map
          (fun l => (l.count Node.isIcon, l.count Node.isHeading, l.count Node.isParagraph,
            l.count Node.isLearnMore))
        = some (1, 1, 1, 1)
    ∧ (Feature r s d).position Node.isLink < (Feature r s d).position Node.isIcon
    ∧ (Feature r s d).position Node.isIcon < (Feature r s d).position Node.isHeading
    ∧ (Feature r s d).position Node.isHeading < (Feature r s d).position Node.isParagraph
    ∧ (Feature r s d).position Node.isParagraph
        < (Feature r s d).position Node.isLearnMore := by
  have hpos : ∀ c : Node IconImport, c.position Node.isLink = 1 → c.position Node.isIcon = 4 →
      c.position Node.isHeading = 5 → c.position Node.isParagraph = 7 →
      c.position Node.isLearnMore = 10 →
      c.position Node.isLink < c.position Node.isIcon
      ∧ c.position Node.isIcon < c.position Node.isHeading
      ∧ c.position Node.isHeading < c.position Node.isParagraph
      ∧ c.position Node.isParagraph < c.position Node.isLearnMore := by
    intro c h1 h2 h3 h4 h5
    omega
  simp only [FeatureList, List.mem_cons, List.mem_singleton, List.not_mem_nil, or_false] at hd
  rcases hd with rfl | rfl | rfl | rfl | rfl | rfl | rfl | rfl <;>
    exact ⟨rfl, rfl, rfl, rfl, rfl, rfl, rfl, rfl, hpos _ rfl rfl rfl rfl rfl⟩

/-- The amended C5 at the last entry of the shipped catalog. -/
theorem card_parts_once_in_order_witness :
    naiveRAG ∈ FeatureList
    ∧ (Feature (joinBaseUrl "/") moduleStyles naiveRAG).count Node.isIcon = 1
    ∧ ((Feature (joinBaseUrl "/") moduleStyles naiveRAG).subnodes.find? Node.isLink).map
          (fun l => (l.count Node.isIcon, l.count Node.isHeading, l.count Node.isParagraph,
            l.count Node.isLearnMore))
        = some (1, 1, 1, 1)
    ∧ (Feature (joinBaseUrl "/") moduleStyles naiveRAG).position Node.isIcon
        < (Feature (joinBaseUrl "/") moduleStyles naiveRAG).position Node.isHeading :=
  have hd : naiveRAG ∈ FeatureList := by simp [FeatureList, naiveRAG]
  have h := card_parts_once_in_order (joinBaseUrl "/") moduleStyles naiveRAG hd
  ⟨hd, h.2.2.1, h.2.2.2.2.2.2.2.1, h.2.2.2.2.2.2.2.2.2.1⟩

/-! ## Isolation and determinism -/

/-- C6: rendering a catalog whose entry `i` got the title `t` gives the cards of the original
rendering with only card `i` changed, and card `i` changed only at the text of its heading
(so also the whole section changes only there); that position holds the title, and the icon,
the paragraph with the description, the navigation target and the class attributes of a card
do not change with the title. -/
theorem retitle_isolated {ι : Type} (r : String → String) (s : Styles) (t : String) :
    (∀ (catalog : List (FeatureDescriptor ι)) (i : Nat),
      sectionCards (HomepageFeaturesOf r s (retitle catalog i t))
        = (sectionCards (HomepageFeaturesOf r s catalog)).modify
            (fun card => card.setAt (0 :: headingTextPath) (.text t)) i)
    ∧ (∀ (catalog : List (FeatureDescriptor ι)) (i : Nat),
      HomepageFeaturesOf r s (retitle catalog i t)
        = (HomepageFeaturesOf r s catalog).setAt (cardPath i ++ headingTextPath) (.text t))
    ∧ (∀ d : FeatureDescriptor ι,
        (Feature r s d).getAt headingTextPath = some (.text d.title)
        ∧ (Feature r s d).getAt [0, 0, 1]
            = some (.element "h3" (s "featureTitle") [.text d.title])
        ∧ (Feature r s { d with title := t }).icons = (Feature r s d).icons
        ∧ (Feature r s { d with title := t }).paragraphs = (Feature r s d).paragraphs
        ∧ (Feature r s { d with title := t }).linkTargets = (Feature r s d).linkTargets
        ∧ (Feature r s { d with title := t }).classNames = (Feature r s d).classNames) := by
  have key : ∀ (catalog : List (FeatureDescriptor ι)) (i : Nat),
      (retitle catalog i t).mapIdx (fun idx props => Node.keyed idx (Feature r s props))
        = (catalog.mapIdx fun idx props => Node.keyed idx (Feature r s props)).modify
            (fun card => card.setAt (0 :: headingTextPath) (.text t)) i := by
    intro catalog i
    exact mapIdx_modify _ _ catalog _ i (fun a => rfl)
  refine ⟨fun catalog i => ?_, fun catalog i => ?_, fun d => ⟨rfl, rfl, rfl, rfl, rfl, rfl⟩⟩
  · rw [sectionCards_eq, sectionCards_eq, key]
  · simp only [HomepageFeaturesOf, key]
    simp [cardPath, Node.setAt]

/-- C7: two render passes give the same section, hence the same sequence of cards, as soon as
they have the same catalog, resolvers that agree on the links of the catalog and style modules
that agree on the classes the components look up; nothing else enters the rendering.  Equal
descriptors give equal cards. -/
theorem rerender_identical {ι : Type} (r₁ r₂ : String → String) (s₁ s₂ : Styles)
    (catalog : List (FeatureDescriptor ι))
    (hr : ∀ d ∈ catalog, r₁ d.link = r₂ d.link)
    (hs : ∀ name ∈ styleNamesRead, s₁ name = s₂ name) :
    HomepageFeaturesOf r₁ s₁ catalog = HomepageFeaturesOf r₂ s₂ catalog
    ∧ sectionCards (HomepageFeaturesOf r₁ s₁ catalog)
        = sectionCards (HomepageFeaturesOf r₂ s₂ catalog)
    ∧ (∀ d₁ d₂ : FeatureDescriptor ι, d₁ = d₂ → r₁ d₁.link = r₂ d₂.link →
        Feature r₁ s₁ d₁ = Feature r₂ s₂ d₂) := by
  have h := render_congr r₁ r₂ s₁ s₂ catalog hr hs
  refine ⟨h, by rw [h], ?_⟩
  intro d₁ d₂ hd hl
  subst hd
  exact feature_congr r₁ r₂ s₁ s₂ d₁ hl hs

/-- C7 at the shipped catalog: a pass with the resolver for base URL `/` and a pass with the
resolver that keeps every link, the style module being the same, give the same section. -/
theorem rerender_identical_witness :
    (∀ d ∈ FeatureList, joinBaseUrl "/" d.link = id d.link)
    ∧ (∀ name ∈ styleNamesRead, moduleStyles name = moduleStyles name)
    ∧ HomepageFeatures (joinBaseUrl "/") moduleStyles = HomepageFeatures id moduleStyles
    ∧ sectionCards (HomepageFeatures (joinBaseUrl "/") moduleStyles)
        = sectionCards (HomepageFeatures id moduleStyles) :=
  have h := rerender_identical (joinBaseUrl "/") id moduleStyles moduleStyles FeatureList
    joinBaseUrl_root_featureList (fun _ _ => rfl)
  ⟨joinBaseUrl_root_featureList, fun _ _ => rfl, h.1, h.2.1⟩

/-! ## The style module -/

/-- C8, as the claim lists the classes: `features` is not among the eight listed names, and
two style modules that give the eight listed names the same value and differ at `features`
give the section element different class attributes. -/
theorem features_class_read_outside_listed :
    "features" ∉ listedStyleNames
    ∧ listedStyleNames.map (Function.update noStyles "features" (some "features_x"))
        = listedStyleNames.map noStyles
    ∧ (HomepageFeatures (joinBaseUrl "/")
          (Function.update noStyles "features" (some "features_x"))).className?
        = some "features_x"
    ∧ (HomepageFeatures (joinBaseUrl "/") noStyles).className? = none
    ∧ ¬ (∀ name, readsStyle (HomepageFeatures (joinBaseUrl "/")) name
          ↔ name ∈ listedStyleNames) := by
  refine ⟨by decide, by decide, by decide, by decide, fun h => ?_⟩
  have hr : readsStyle (HomepageFeatures (joinBaseUrl "/")) "features" :=
    reads_of_classNames _ _ (by decide)
  have hm := (h "features").1 hr
  revert hm
  decide

/-- C8, amended: the classes the shipped component reads from the style module are exactly
nine, the eight listed ones and `features`, which `HomepageFeatures` gives the section. -/
theorem styles_read_exactly (r : String → String) (name : String) :
    (readsStyle (HomepageFeatures r) name ↔ name ∈ styleNamesRead)
    ∧ (name ∈ styleNamesRead ↔ name ∈ listedStyleNames ∨ name = "features") := by
  refine ⟨⟨?_, ?_⟩, ?_⟩
  · rintro ⟨s, v, hne⟩
    by_contra hmem
    apply hne
    apply render_congr
    · intro d _; rfl
    · intro n hn
      have : n ≠ name := fun e => hmem (e ▸ hn)
      simp [Function.update, this]
  · intro h
    simp only [styleNamesRead, List.mem_cons, List.mem_singleton, List.not_mem_nil,
      or_false] at h
    rcases h with rfl | rfl | rfl | rfl | rfl | rfl | rfl | rfl | rfl <;>
      exact reads_of_classNames r _ (by decide)
  · simp only [styleNamesRead, listedStyleNames, List.mem_cons, List.mem_singleton,
      List.not_mem_nil, or_false]
    tauto

/-! ## The shipped catalog -/

/-- C10: `FeatureList` has eight entries, pairwise distinct titles, pairwise distinct links
that each begin with `/docs/`, and every imported icon is the icon of exactly one entry. -/
theorem featureList_well_formed :
    FeatureList.length = 8
    ∧ (FeatureList.map (·.title)).Nodup
    ∧ (FeatureList.map (·.link)).Nodup
    ∧ (∀ d ∈ FeatureList, "/docs/".toList <+: d.link.toList)
    ∧ (∀ ic : IconImport, (FeatureList.map (·.icon)).count ic = 1) := by
  refine ⟨rfl, by decide, by decide, ?_, ?_⟩
  · intro d hd
    have : ∀ l ∈ FeatureList.map (·.link), "/docs/".toList <+: l.toList := by decide
    exact this _ (List.mem_map_of_mem _ hd)
  · intro ic
    cases ic <;> decide

/-- C10 at the last entry of the shipped catalog. -/
theorem featureList_well_formed_witness :
    naiveRAG ∈ FeatureList ∧ "/docs/".toList <+: naiveRAG.link.toList :=
  have hd : naiveRAG ∈ FeatureList := by simp [FeatureList, naiveRAG]
  ⟨hd, featureList_well_formed.2.2.2.1 naiveRAG hd⟩

end Docusaurus
